import Mathlib

/-!
Verification of the dynamic field-detection / fill / suggestion engines in
`python-bridge/enhanced_browser_automation.py` (including the JavaScript
`DynamicFieldDetector` injected by `inject_field_detection_scripts`) and of
the task-outcome classification in `python-bridge/browser_use_bridge.py`.

The embedding is shallow: each source function becomes a pure Lean function
over an explicit data model.  Python/JS strings are Lean `String`s; the
case-insensitive operations of the source (`.lower()`, `.toLowerCase()`,
`in`, regex `/literal/i`) are embedded by an executable ASCII lowering and a
substring test.  Floats (the confidence arithmetic) are embedded as `ℚ`;
every constant involved (0.5, 0.3, 0.2, score/100) is exact.  Python dict
iteration is modelled by association lists in insertion order, and the two
stable sorts of the source (JS `Array.prototype.sort`, Python `list.sort`)
by an insertion sort that is stable by construction.
-/

/-- ASCII lowering of one character, as performed by Python `str.lower` /
JS `toLowerCase` on the ASCII range used by the source's vocabulary. -/
def lowerChar (c : Char) : Char :=
  if 'A' ≤ c ∧ c ≤ 'Z' then Char.ofNat (c.toNat + 32) else c

/-- Lowercasing of a string (`.lower()` / `.toLowerCase()` in the source). -/
def stLower (s : String) : String := String.mk (s.data.map lowerChar)

/-- Does the first list occur as a leading segment of the second. -/
def leadMatch : List Char → List Char → Bool
  | [], _ => true
  | _ :: _, [] => false
  | c :: cs, d :: ds => c == d && leadMatch cs ds

/-- Does `needle` occur contiguously anywhere inside the second list. -/
def seqContains (needle : List Char) : List Char → Bool
  | [] => leadMatch needle []
  | d :: ds => leadMatch needle (d :: ds) || seqContains needle ds

/-- Python's `needle in hay` on strings: contiguous substring occurrence. -/
def strIn (needle hay : String) : Bool := seqContains needle.data hay.data

/-- JS truthiness of an optional string (`filter(Boolean)`): both
`undefined` and the empty string are falsy. -/
def truthyList (o : Option String) : List String :=
  match o with
  | none => []
  | some s => if s = "" then [] else [s]

/-- JS truthiness of an optional string as a Bool (`if (context.label)`). -/
def isTruthy (o : Option String) : Bool :=
  match o with
  | none => false
  | some s => s != ""

namespace EnhancedBrowserAutomation

/-- The `attributes` record built by `extractAttributes`: `name`, `id`,
`placeholder`, `className` are `element.x || undefined`, `type` always
present. -/
structure Attributes where
  name : Option String
  id : Option String
  type : String
  placeholder : Option String
  className : Option String
deriving DecidableEq, Repr

/-- The `context` record built by `analyzeContext`: `label` from
`findLabel` (possibly undefined), `nearbyText` from `getNearbyText`. -/
structure Context where
  label : Option String
  nearbyText : List String
deriving DecidableEq, Repr

/-- A detected field as serialised back to Python by
`detect_and_highlight_fields`.  `order` is the discovery counter embedded
in the generated `field_${order}_${Date.now()}` id. -/
structure Field where
  semantic : String
  score : Nat
  attributes : Attributes
  context : Context
  order : Nat
deriving DecidableEq, Repr

/-- `calculateScore` of `DynamicFieldDetector`: base 50, +20 for a truthy
label, +15 for a truthy placeholder, +15 for a non-`unknown` semantic,
clamped by `Math.min(100, score)`. -/
def calculateScore (attributes : Attributes) (context : Context) (semantic : String) : Nat :=
  let s0 := 50
  let s1 := if isTruthy context.label then s0 + 20 else s0
  let s2 := if isTruthy attributes.placeholder then s1 + 15 else s1
  let s3 := if semantic ≠ "unknown" then s2 + 15 else s2
  min 100 s3

/-- The `semanticPatterns` table of `DynamicFieldDetector`, in declaration
order; every regex in the source is a case-insensitive literal, embedded as
the literal itself (matched against the already-lowercased search text). -/
def semanticPatterns : List (String × List String) :=
  [("email", ["email", "e-mail", "mail"]),
   ("password", ["password", "pass", "pwd"]),
   ("name", ["name", "firstname", "lastname"]),
   ("departure", ["from", "departure", "origin", "depart"]),
   ("destination", ["to", "destination", "arrival", "arrive"]),
   ("date", ["date", "when", "departure"]),
   ("phone", ["phone", "tel", "mobile"]),
   ("address", ["address", "street", "city"])]

/-- The search text of `inferPurpose`:
`[name, id, placeholder, label, ...nearbyText].filter(Boolean).join(' ').toLowerCase()`. -/
def searchText (attributes : Attributes) (context : Context) : String :=
  stLower (String.intercalate " "
    (truthyList attributes.name ++ truthyList attributes.id ++
     truthyList attributes.placeholder ++ truthyList context.label ++
     context.nearbyText.filter (fun s => s != "")))

/-- `inferPurpose`: first category (in table order) with a matching
pattern, otherwise `'unknown'`. -/
def inferPurpose (attributes : Attributes) (context : Context) : String :=
  match semanticPatterns.find?
      (fun cat => cat.2.any fun p => strIn p (searchText attributes context)) with
  | some cat => cat.1
  | none => "unknown"

/-- Stable insertion step: `x` is placed before the first element `y` with
`le x y`; on ties of the underlying key this keeps `x` (the earlier input
element) first. -/
def insStable {α : Type} (le : α → α → Bool) (x : α) : List α → List α
  | [] => [x]
  | y :: ys => if le x y then x :: y :: ys else y :: insStable le x ys

/-- Stable sort (models JS `Array.prototype.sort` and Python `list.sort`,
both stable). -/
def sortStable {α : Type} (le : α → α → Bool) : List α → List α
  | [] => []
  | x :: xs => insStable le x (sortStable le xs)

/-- `rankFields`: `fields.sort((a, b) => b.score - a.score)`, i.e. a stable
sort descending by score. -/
def rankFields (fields : List Field) : List Field :=
  sortStable (fun a b => decide (b.score ≤ a.score)) fields

/-- The candidate computation of `fill_field_by_semantic_type`: exact
semantic equality first, else the partial fallback
`semantic_type.lower() in field['semantic'].lower()`. -/
def matchingFields (fields : List Field) (semantic_type : String) : List Field :=
  if (fields.filter fun f => f.semantic == semantic_type).isEmpty then
    fields.filter fun f => strIn (stLower semantic_type) (stLower f.semantic)
  else fields.filter fun f => f.semantic == semantic_type

/-- Python `max(xs, key=score)` starting from a current best: replaces the
best only on a strictly greater key, so the first maximum wins. -/
def pyMaxBy (best : Field) : List Field → Field
  | [] => best
  | x :: xs => pyMaxBy (if best.score < x.score then x else best) xs

/-- `max(matching_fields, key=lambda x: x['score'])`, `none` when the
candidate list is empty (the source returns `False` before reaching it). -/
def bestField : List Field → Option Field
  | [] => none
  | f :: fs => some (pyMaxBy f fs)

/-- `fill_field_by_semantic_type`: no candidate means `False`; otherwise
the best-scored candidate is filled.  `fill` abstracts the in-page
`page.evaluate` fill: `some b` is its boolean result, `none` a raised
exception, which the source catches and turns into `False`. -/
def fill_field_by_semantic_type (fields : List Field) (semantic_type value : String)
    (fill : Field → String → Option Bool) : Bool :=
  match bestField (matchingFields fields semantic_type) with
  | none => false
  | some best => (fill best value).getD false

/-- `smart_field_fill`: one boolean result per data key, in dict insertion
order. -/
def smart_field_fill (fields : List Field) (field_data : List (String × String))
    (fill : Field → String → Option Bool) : List (String × Bool) :=
  field_data.map fun kv => (kv.1, fill_field_by_semantic_type fields kv.1 kv.2 fill)

/-- The semantic-matching bonus of `calculate_mapping_confidence`: 0.5 on
case-insensitive equality, else 0.3 when the lowered key occurs inside the
lowered semantic. -/
def semanticBonus (data_key : String) (f : Field) : ℚ :=
  if stLower data_key = stLower f.semantic then 1/2
  else if strIn (stLower data_key) (stLower f.semantic) then 3/10
  else 0

/-- The lowered `context_text` of `calculate_mapping_confidence`:
label + ' ' + joined nearbyText + ' ' + placeholder (absent entries
defaulting to empty via `.get`). -/
def contextText (f : Field) : String :=
  stLower (f.context.label.getD "" ++ " " ++
    String.intercalate " " f.context.nearbyText ++ " " ++
    f.attributes.placeholder.getD "")

/-- The context bonus of `calculate_mapping_confidence`: 0.2 when the
lowered key occurs in the lowered context text. -/
def contextBonus (data_key : String) (f : Field) : ℚ :=
  if strIn (stLower data_key) (contextText f) then 1/5 else 0

/-- `calculate_mapping_confidence`: `min(1.0, base + semantic + context)`
with `base = score / 100.0`. -/
def calculate_mapping_confidence (data_key : String) (f : Field) : ℚ :=
  min 1 ((f.score : ℚ) / 100 + semanticBonus data_key f + contextBonus data_key f)

/-- A suggestion record `{'field': ..., 'confidence': ...}`. -/
structure Suggestion where
  field : Field
  confidence : ℚ
deriving DecidableEq, Repr

/-- The per-key body of `get_field_suggestions`: collect fields with
confidence strictly above 0.3, stable-sort descending by confidence,
keep the first three. -/
def suggestionsForKey (fields : List Field) (data_key : String) : List Suggestion :=
  (sortStable (fun a b => decide (b.confidence ≤ a.confidence))
    ((fields.map fun f =>
        Suggestion.mk f (calculate_mapping_confidence data_key f)).filter
      fun s => decide ((3 : ℚ)/10 < s.confidence))).take 3

/-- `get_field_suggestions`: one suggestion list per user-data key, in dict
insertion order. -/
def get_field_suggestions (fields : List Field) (user_data : List (String × String)) :
    List (String × List Suggestion) :=
  user_data.map fun kv => (kv.1, suggestionsForKey fields kv.1)

/-- Worded from the spec sentence behind C1 (substring containment in
either direction), to be compared with the fallback branch of
`matchingFields`. -/
def claimedFallback (fields : List Field) (semantic_type : String) : List Field :=
  fields.filter fun f =>
    strIn (stLower semantic_type) (stLower f.semantic) ||
      strIn (stLower f.semantic) (stLower semantic_type)

/-- Worded from the spec sentence behind C2 (0.5 on exact key/semantic
equality, 0.3 when either contains the other, clamp to [0,1]), to be
compared with `calculate_mapping_confidence`. -/
def claimedConfidence (data_key : String) (f : Field) : ℚ :=
  max 0 (min 1 ((f.score : ℚ) / 100 +
    (if data_key = f.semantic then 1/2
     else if strIn (stLower data_key) (stLower f.semantic) ||
         strIn (stLower f.semantic) (stLower data_key) then 3/10
     else 0) +
    (if strIn (stLower data_key) (contextText f) then 1/5 else 0)))

/-- The amended C2 formula: clamp(base + semanticBonus + contextBonus, 0, 1)
with the one-directional semantic bonus actually computed by the source. -/
def amendedConfidence (data_key : String) (f : Field) : ℚ :=
  max 0 (min 1 ((f.score : ℚ) / 100 + semanticBonus data_key f + contextBonus data_key f))

/-- Worded from the spec sentence behind C7: the search string with only
`undefined` entries skipped. -/
def claimedSearchText (attributes : Attributes) (context : Context) : String :=
  stLower (String.intercalate " "
    (attributes.name.toList ++ attributes.id.toList ++
     attributes.placeholder.toList ++ context.label.toList ++ context.nearbyText))

/-- The amended C7 search string: the lowercase space-join of name, id,
placeholder, label and the nearbyText fragments, skipping undefined and
empty entries (JS `filter(Boolean)` treats both as falsy). -/
def amendedSearchText (attributes : Attributes) (context : Context) : String :=
  stLower (String.intercalate " "
    ((attributes.name.toList ++ attributes.id.toList ++
      attributes.placeholder.toList ++ context.label.toList ++
      context.nearbyText).filter fun s => s != ""))

/-- An attributes record with nothing set (a bare `<input type="text">`). -/
def blankAttributes : Attributes :=
  { name := none, id := none, type := "text", placeholder := none, className := none }

/-- A context with no label and no nearby text. -/
def blankContext : Context := { label := none, nearbyText := [] }

/-- A detected plain email field, discovery index 0, score 80. -/
def emailField : Field :=
  { semantic := "email", score := 80, attributes := blankAttributes,
    context := blankContext, order := 0 }

/-- A second detected email field with the same score, discovery index 1. -/
def emailField2 : Field :=
  { semantic := "email", score := 80, attributes := blankAttributes,
    context := blankContext, order := 1 }

/-- An attributes record carrying only a name attribute `a`. -/
def aNameAttributes : Attributes := { blankAttributes with name := some "a" }

/-- A context whose label resolved to the empty string — `findLabel`
returns `label.textContent.trim()`, which is `""` for a text-less label
element. -/
def emptyLabelContext : Context := { label := some "", nearbyText := [] }

/-- A detected email field with the minimal score 50. -/
def plainEmailField : Field :=
  { semantic := "email", score := 50, attributes := blankAttributes,
    context := blankContext, order := 0 }

end EnhancedBrowserAutomation

namespace BrowserUseBridge

/-- Outcome of `await`ing `self.agent.run()` under `asyncio.wait_for`:
normal completion, the deadline elapsing (`asyncio.TimeoutError`; the
cancelled coroutine's in-flight fault or state is discarded by the runtime
and recorded here only to show it cannot influence the result), or a fault
propagating out with a message. -/
inductive RunOutcome where
  | completes (data : String)
  | timesOut (inflight : String)
  | fails (message : String)
deriving DecidableEq, Repr

/-- A response written by `send_response`: the `"type"` tag collapsed to
the two shapes the claims distinguish, with the `"message"` payload. -/
inductive Response where
  | success (data : String)
  | error (message : String)
deriving DecidableEq, Repr

/-- Whether a response is an error-typed response. -/
def Response.isError : Response → Bool
  | .success _ => false
  | .error _ => true

/-- The bot-detection vocabulary scanned for in `execute_task`. -/
def botKeywords : List String :=
  ["captcha", "bot", "verification", "challenge", "blocked"]

/-- `any(keyword in error_msg for keyword in [...])` with
`error_msg = str(e).lower()`. -/
def isBotMessage (msg : String) : Bool :=
  botKeywords.any fun k => strIn k (stLower msg)

/-- The generic-fault handler of `execute_task`: bot-vocabulary faults get
the distinguishing `"Bot detection encountered: "` cause, all others the
fault's own message; both are `"type": "error"` responses. -/
def classifyFault (msg : String) : Response :=
  if isBotMessage msg then Response.error ("Bot detection encountered: " ++ msg)
  else Response.error msg

/-- The message sent from the `asyncio.TimeoutError` handler. -/
def timedOutMessage (secs : Nat) : String :=
  "Task timed out after " ++ toString secs ++
    " seconds. Site may have bot detection or be unresponsive."

/-- `execute_task`: an empty task raises `ValueError` into the outer
handler; otherwise the run is awaited under `min(timeout, 90)` seconds,
with the inner handler catching only `asyncio.TimeoutError` and the outer
handler classifying every other fault. -/
def execute_task (task _url : String) (timeout : Nat) (run : RunOutcome) : Response :=
  if task = "" then classifyFault "Task description is required"
  else
    match run with
    | .completes data => Response.success data
    | .timesOut _ => Response.error (timedOutMessage (min timeout 90))
    | .fails msg => classifyFault msg

end BrowserUseBridge

namespace EnhancedBrowserAutomation

theorem mem_insStable {α : Type} (le : α → α → Bool) (x a : α) (l : List α) :
    a ∈ insStable le x l ↔ a = x ∨ a ∈ l := by
  induction l with
  | nil => simp [insStable]
  | cons y ys ih =>
    rw [insStable]
    split
    · simp [List.mem_cons]
    · simp only [List.mem_cons, ih]
      tauto

theorem mem_sortStable {α : Type} (le : α → α → Bool) (a : α) (l : List α) :
    a ∈ sortStable le l ↔ a ∈ l := by
  induction l with
  | nil => simp [sortStable]
  | cons x xs ih =>
    rw [sortStable, mem_insStable]
    simp [ih, List.mem_cons]

theorem insStable_pairwise {α : Type} (le : α → α → Bool) {R : α → α → Prop}
    (htot : ∀ a b, le a b = false → le b a = true)
    (htrans : ∀ a b c, le a b = true → le b c = true → le a c = true)
    (x : α) (l : List α)
    (hl : l.Pairwise fun a b => le a b = true ∧ (le b a = true → R a b))
    (hx : ∀ y ∈ l, R x y) :
    (insStable le x l).Pairwise fun a b => le a b = true ∧ (le b a = true → R a b) := by
  induction l with
  | nil => simp [insStable]
  | cons y ys ih =>
    rw [List.pairwise_cons] at hl
    obtain ⟨hy, hys⟩ := hl
    rw [insStable]
    by_cases hxy : le x y = true
    · rw [if_pos hxy, List.pairwise_cons]
      refine ⟨?_, List.pairwise_cons.mpr ⟨hy, hys⟩⟩
      intro z hz
      rcases List.mem_cons.mp hz with hz | hz
      · subst hz
        exact ⟨hxy, fun _ => hx z (List.mem_cons_self z ys)⟩
      · exact ⟨htrans x y z hxy (hy z hz).1, fun _ => hx z (List.mem_cons_of_mem y hz)⟩
    · rw [if_neg hxy, List.pairwise_cons]
      have hxy' : le x y = false := by
        revert hxy
        cases le x y <;> simp
      refine ⟨?_, ih hys fun z hz => hx z (List.mem_cons_of_mem y hz)⟩
      intro z hz
      rcases (mem_insStable le x z ys).mp hz with hz | hz
      · subst hz
        exact ⟨htot z y hxy', fun hc => absurd hc hxy⟩
      · exact hy z hz

theorem sortStable_pairwise {α : Type} (le : α → α → Bool) {R : α → α → Prop}
    (htot : ∀ a b, le a b = false → le b a = true)
    (htrans : ∀ a b c, le a b = true → le b c = true → le a c = true)
    (l : List α) (hR : l.Pairwise R) :
    (sortStable le l).Pairwise fun a b => le a b = true ∧ (le b a = true → R a b) := by
  induction l with
  | nil => simp [sortStable]
  | cons x xs ih =>
    rw [List.pairwise_cons] at hR
    rw [sortStable]
    exact insStable_pairwise le htot htrans x _ (ih hR.2)
      fun y hy => hR.1 y ((mem_sortStable le y xs).mp hy)

theorem pyMaxBy_of_sorted (x : Field) (l : List Field)
    (h : (x :: l).Pairwise fun a b => b.score ≤ a.score) :
    pyMaxBy x l = x := by
  induction l with
  | nil => rfl
  | cons y ys ih =>
    rw [List.pairwise_cons] at h
    rw [pyMaxBy, if_neg (Nat.not_lt.mpr (h.1 y (List.mem_cons_self y ys)))]
    apply ih
    rw [List.pairwise_cons]
    exact ⟨fun z hz => h.1 z (List.mem_cons_of_mem y hz),
      (List.pairwise_cons.mp h.2).2⟩

theorem matchingFields_pairwise {S : Field → Field → Prop} (fields : List Field)
    (semantic_type : String) (h : fields.Pairwise S) :
    (matchingFields fields semantic_type).Pairwise S := by
  unfold matchingFields
  split
  · exact h.filter _
  · exact h.filter _

theorem truthyList_eq_filter (o : Option String) :
    truthyList o = o.toList.filter fun s => s != "" := by
  cases o with
  | none => rfl
  | some s =>
    rcases eq_or_ne s "" with rfl | h
    · rfl
    · rw [truthyList, if_neg h]
      simp [h]

theorem find?_split {α : Type} (p : α → Bool) (l : List α) (a : α)
    (h : l.find? p = some a) :
    ∃ l₁ l₂, l = l₁ ++ a :: l₂ ∧ p a = true ∧ ∀ b ∈ l₁, p b = false := by
  induction l with
  | nil => simp [List.find?] at h
  | cons x xs ih =>
    by_cases hx : p x = true
    · rw [List.find?_cons_of_pos _ hx] at h
      obtain rfl : x = a := by injection h
      exact ⟨[], xs, by simp, hx, by simp⟩
    · have hx' : p x = false := by
        revert hx
        cases p x <;> simp
      rw [List.find?_cons_of_neg _ (by simp [hx'])] at h
      obtain ⟨l₁, l₂, rfl, hpa, hprev⟩ := ih h
      refine ⟨x :: l₁, l₂, by simp, hpa, ?_⟩
      intro b hb
      rcases List.mem_cons.mp hb with rfl | hb
      · exact hx'
      · exact hprev b hb

end EnhancedBrowserAutomation

open EnhancedBrowserAutomation BrowserUseBridge

/-- Claim C1 counterexample: for key `"emailaddress"` and a sole detected
field of semantic `"email"` there is no exact match, the field satisfies
the claimed bidirectional substring condition (the key contains the
semantic), yet the Fill Engine's fallback candidate set is empty — the
source only tests `semantic_type.lower() in field['semantic'].lower()`. -/
theorem fallback_bidirectional_refuted :
    List.filter (fun f => f.semantic == "emailaddress") [emailField] = [] ∧
    matchingFields [emailField] "emailaddress" = [] ∧
    claimedFallback [emailField] "emailaddress" = [emailField] := by
  decide

/-- Claim C1 (amended): for every data key with no field whose semantic
equals the key exactly, the fallback candidate set consists of exactly
those detected fields whose semantic contains the key as a
case-insensitive substring (one direction only). -/
theorem fallback_one_directional (fields : List Field) (semantic_type : String)
    (hexact : fields.filter (fun f => f.semantic == semantic_type) = [])
    (f : Field) :
    f ∈ matchingFields fields semantic_type ↔
      f ∈ fields ∧ strIn (stLower semantic_type) (stLower f.semantic) = true := by
  unfold matchingFields
  rw [hexact]
  simp [List.mem_filter]

/-- Witness for the amended C1 at a concrete input: the key `"mail"` is a
substring of the semantic `"email"`, so the field is a fallback candidate. -/
theorem fallback_one_directional_witness :
    emailField ∈ matchingFields [emailField] "mail" :=
  (fallback_one_directional [emailField] "mail" (by decide) emailField).mpr (by decide)

/-- Claim C2 counterexample: for key `"emailaddress"` and a bare field of
semantic `"email"` with score 50, the source computes confidence 0.5 (no
semantic bonus: the key is not a substring of the semantic), while the
claimed formula awards the 0.3 either-direction bonus and yields 0.8. -/
theorem confidence_claim_refuted :
    calculate_mapping_confidence "emailaddress" plainEmailField = 1/2 ∧
    claimedConfidence "emailaddress" plainEmailField = 4/5 ∧
    calculate_mapping_confidence "emailaddress" plainEmailField ≠
      claimedConfidence "emailaddress" plainEmailField := by
  have h1 : calculate_mapping_confidence "emailaddress" plainEmailField = 1/2 := by
    have hsb : semanticBonus "emailaddress" plainEmailField = 0 := by
      unfold semanticBonus
      rw [if_neg (by decide), if_neg (by decide)]
    have hcb : contextBonus "emailaddress" plainEmailField = 0 := by
      unfold contextBonus
      rw [if_neg (by decide)]
    unfold calculate_mapping_confidence
    rw [hsb, hcb]
    norm_num [plainEmailField]
  have h2 : claimedConfidence "emailaddress" plainEmailField = 4/5 := by
    unfold claimedConfidence
    rw [if_neg (by decide), if_pos (by decide), if_neg (by decide)]
    norm_num [plainEmailField]
  exact ⟨h1, h2, by rw [h1, h2]; norm_num⟩

/-- Claim C2 (amended): for every key and field the confidence equals
clamp(base + semanticBonus + contextBonus, 0, 1) with base = score / 100,
semanticBonus = 0.5 on case-insensitive key/semantic equality, else 0.3
when the key occurs in the semantic as a case-insensitive substring (one
direction only), else 0, and contextBonus = 0.2 when the key occurs
case-insensitively in the label/nearbyText/placeholder concatenation. -/
theorem confidence_amended_formula (data_key : String) (f : Field) :
    calculate_mapping_confidence data_key f = amendedConfidence data_key f := by
  unfold calculate_mapping_confidence amendedConfidence
  have hb : (0 : ℚ) ≤ (f.score : ℚ) / 100 := by positivity
  have hs : (0 : ℚ) ≤ semanticBonus data_key f := by
    unfold semanticBonus
    split_ifs <;> norm_num
  have hc : (0 : ℚ) ≤ contextBonus data_key f := by
    unfold contextBonus
    split_ifs <;> norm_num
  rw [max_eq_right (le_min (by norm_num) (by linarith))]

/-- Claim C4: the score is the clamped sum of the base 50 and the three
bonuses (label +20, placeholder +15, known semantic +15); it never exceeds
100 (the lower bound 0 is immediate since the score is a `Nat`), and it is
monotonically non-decreasing as each bonus condition is added while the
others are held fixed. -/
theorem calculateScore_closed_form_and_monotone (a : Attributes) (c : Context) (s : String) :
    calculateScore a c s =
      min 100 (50 + (if isTruthy c.label then 20 else 0) +
        (if isTruthy a.placeholder then 15 else 0) +
        (if s ≠ "unknown" then 15 else 0)) ∧
    calculateScore a c s ≤ 100 ∧
    (∀ v, calculateScore a { c with label := none } s ≤
      calculateScore a { c with label := v } s) ∧
    (∀ v, calculateScore { a with placeholder := none } c s ≤
      calculateScore { a with placeholder := v } c s) ∧
    calculateScore a c "unknown" ≤ calculateScore a c s := by
  have he : ∀ (a' : Attributes) (c' : Context) (s' : String),
      calculateScore a' c' s' =
        min 100 (50 + (if isTruthy c'.label then 20 else 0) +
          (if isTruthy a'.placeholder then 15 else 0) +
          (if s' ≠ "unknown" then 15 else 0)) := by
    intro a' c' s'
    unfold calculateScore
    split_ifs <;> rfl
  refine ⟨he a c s, ?_, ?_, ?_, ?_⟩
  · rw [he]
    exact min_le_left 100 _
  · intro v
    rw [he, he]
    refine min_le_min (le_refl 100) ?_
    refine Nat.add_le_add (Nat.add_le_add (Nat.add_le_add (le_refl 50) ?_) (le_refl _)) (le_refl _)
    have h0 : (if isTruthy (({ c with label := none } : Context).label) then 20 else 0) = 0 := rfl
    rw [h0]
    exact Nat.zero_le _
  · intro v
    rw [he, he]
    refine min_le_min (le_refl 100) ?_
    refine Nat.add_le_add (Nat.add_le_add (le_refl _) ?_) (le_refl _)
    have h0 : (if isTruthy (({ a with placeholder := none } : Attributes).placeholder) then 15 else 0) = 0 := rfl
    rw [h0]
    exact Nat.zero_le _
  · rw [he, he]
    refine min_le_min (le_refl 100) ?_
    refine Nat.add_le_add (le_refl _) ?_
    have h0 : (if ("unknown" : String) ≠ "unknown" then 15 else 0) = 0 := rfl
    rw [h0]
    exact Nat.zero_le _

/-- Claim C10: every score the scorer can produce is at least 50 (and at
most 100); a field with no label, no placeholder and unknown semantic
scores exactly 50, so the Suggestion Engine's normalized base score
`score / 100` is at least 0.5 for every field. -/
theorem score_lower_bound (a : Attributes) (c : Context) (s : String) :
    50 ≤ calculateScore a c s ∧ calculateScore a c s ≤ 100 ∧
    (isTruthy c.label = false → isTruthy a.placeholder = false → s = "unknown" →
      calculateScore a c s = 50) ∧
    (1 : ℚ)/2 ≤ (calculateScore a c s : ℚ) / 100 := by
  have he : ∀ (a' : Attributes) (c' : Context) (s' : String),
      calculateScore a' c' s' =
        min 100 (50 + (if isTruthy c'.label then 20 else 0) +
          (if isTruthy a'.placeholder then 15 else 0) +
          (if s' ≠ "unknown" then 15 else 0)) := by
    intro a' c' s'
    unfold calculateScore
    split_ifs <;> rfl
  have h1 : 50 ≤ calculateScore a c s := by
    rw [he]
    split_ifs <;> omega
  refine ⟨h1, ?_, ?_, ?_⟩
  · rw [he]
    exact min_le_left 100 _
  · intro hl hp hs
    subst hs
    rw [he, hl, hp]
    decide
  · have h50 : (50 : ℚ) ≤ (calculateScore a c s : ℚ) := by exact_mod_cast h1
    calc (1 : ℚ)/2 = 50/100 := by norm_num
    _ ≤ (calculateScore a c s : ℚ)/100 := by gcongr

/-- Witness for C10 at a concrete input: the bare unknown field scores
exactly 50, the lower bound attained. -/
theorem score_lower_bound_witness :
    50 ≤ calculateScore blankAttributes blankContext "unknown" ∧
    calculateScore blankAttributes blankContext "unknown" = 50 :=
  ⟨(score_lower_bound blankAttributes blankContext "unknown").1,
   (score_lower_bound blankAttributes blankContext "unknown").2.2.1 (by decide) (by decide) rfl⟩

/-- Claim C5: the Fill Engine returns exactly one boolean per input key in
order (no exception for a missing match reaches the caller — the
no-candidate branch returns `False` directly, and a fault inside the
in-page fill, modelled by `fill` returning `none`, is caught and also
yields `False`), and every key without a matching field is recorded as
`false` while the remaining keys are still processed. -/
theorem smart_field_fill_total (fields : List Field)
    (field_data : List (String × String)) (fill : Field → String → Option Bool) :
    (smart_field_fill fields field_data fill).map Prod.fst = field_data.map Prod.fst ∧
    ∀ kv ∈ field_data, matchingFields fields kv.1 = [] →
      (kv.1, false) ∈ smart_field_fill fields field_data fill := by
  constructor
  · unfold smart_field_fill
    rw [List.map_map]
    rfl
  · intro kv hkv hmatch
    unfold smart_field_fill
    apply List.mem_map.mpr
    refine ⟨kv, hkv, ?_⟩
    unfold fill_field_by_semantic_type
    rw [hmatch]
    rfl

/-- Witness for C5 at a concrete input: with no detected fields, the key
`"email"` has no match and is reported `false`. -/
theorem smart_field_fill_total_witness :
    ("email", false) ∈ smart_field_fill [] [("email", "x")] (fun _ _ => none) :=
  (smart_field_fill_total [] [("email", "x")] (fun _ _ => none)).2
    ("email", "x") (by decide) (by decide)

/-- Claim C8: when the deadline elapses, the attempt is reported with the
timed-out response computed from `min(timeout, 90)` alone — for every
possible in-flight sub-state, including one whose fault message carries
bot-detection vocabulary — and the timed-out message is distinct from
every bot-detection cause string, so the timeout classification takes
precedence over any in-flight classification. -/
theorem timeout_precedes_other_classification (task u : String) (t : Nat)
    (inflight : String) (htask : task ≠ "") :
    execute_task task u t (RunOutcome.timesOut inflight) =
      Response.error (timedOutMessage (min t 90)) ∧
    (∀ inflight', execute_task task u t (RunOutcome.timesOut inflight') =
      execute_task task u t (RunOutcome.timesOut inflight)) ∧
    (∀ n m, timedOutMessage n ≠ "Bot detection encountered: " ++ m) := by
  refine ⟨?_, ?_, ?_⟩
  · unfold execute_task
    rw [if_neg htask]
  · intro inflight'
    unfold execute_task
    rw [if_neg htask]
  · intro n m h
    have hT : ((timedOutMessage n).data).head? = some 'T' := by
      rw [timedOutMessage, String.data_append, String.data_append]
      rfl
    have hB : (("Bot detection encountered: " ++ m).data).head? = some 'B' := by
      rw [String.data_append]
      rfl
    rw [h, hB] at hT
    exact absurd (Option.some.inj hT) (by decide)

/-- Witness for C8 at a concrete input: a 60-second task whose in-flight
fault mentions a captcha is still reported with the timeout message, and
the timeout message differs from the bot-detection cause string. -/
theorem timeout_precedes_witness :
    execute_task "go" "" 60 (RunOutcome.timesOut "captcha blocked") =
      Response.error (timedOutMessage (min 60 90)) ∧
    timedOutMessage 60 ≠ "Bot detection encountered: " ++ "captcha blocked" :=
  ⟨(timeout_precedes_other_classification "go" "" 60 "captcha blocked" (by decide)).1,
   (timeout_precedes_other_classification "go" "" 60 "captcha blocked" (by decide)).2.2
     60 "captcha blocked"⟩

/-- Claim C9: every non-timeout fault is reported as an error-typed
(terminal `failed`) response; a fault whose message contains bot-detection
vocabulary (captcha, bot, verification, challenge, blocked — matched
case-insensitively) gets the distinguishing
`"Bot detection encountered: "` cause string, every other fault is
reported with its own message. -/
theorem fault_classification (task u : String) (t : Nat) (msg : String)
    (htask : task ≠ "") :
    (execute_task task u t (RunOutcome.fails msg)).isError = true ∧
    (isBotMessage msg = true →
      execute_task task u t (RunOutcome.fails msg) =
        Response.error ("Bot detection encountered: " ++ msg)) ∧
    (isBotMessage msg = false →
      execute_task task u t (RunOutcome.fails msg) = Response.error msg) := by
  unfold execute_task
  rw [if_neg htask]
  unfold classifyFault
  cases hb : isBotMessage msg
  · simp [Response.isError, hb]
  · simp [Response.isError, hb]

/-- Witness for C9 at concrete inputs: a captcha-flavoured fault gets the
bot-detection cause, a plain fault is echoed, both as error responses. -/
theorem fault_classification_witness :
    execute_task "go" "" 60 (RunOutcome.fails "CAPTCHA required") =
      Response.error ("Bot detection encountered: " ++ "CAPTCHA required") ∧
    execute_task "go" "" 60 (RunOutcome.fails "boom") = Response.error "boom" ∧
    (execute_task "go" "" 60 (RunOutcome.fails "boom")).isError = true :=
  ⟨(fault_classification "go" "" 60 "CAPTCHA required" (by decide)).2.1 (by decide),
   (fault_classification "go" "" 60 "boom" (by decide)).2.2 (by decide),
   (fault_classification "go" "" 60 "boom" (by decide)).1⟩

/-- Claim C3: for every data mapping and every key in it (given the
Scanner invariant that the detected-field list is score-descending, which
`rankFields` guarantees), the returned suggestion list has length at most
3, is descending in confidence with ties broken by score-descending, and
contains no suggestion with confidence below 0.3 (everything kept is in
fact strictly above 0.3). -/
theorem suggestions_sorted_truncated (fields : List Field)
    (user_data : List (String × String)) (data_key : String) (l : List Suggestion)
    (hfields : fields.Pairwise fun a b => b.score ≤ a.score)
    (hmem : (data_key, l) ∈ get_field_suggestions fields user_data) :
    l.length ≤ 3 ∧
    (l.Pairwise fun s t => t.confidence ≤ s.confidence ∧
      (s.confidence = t.confidence → t.field.score ≤ s.field.score)) ∧
    ∀ s ∈ l, (3 : ℚ)/10 < s.confidence := by
  obtain ⟨kv, hkv, heq⟩ := List.mem_map.mp hmem
  rw [Prod.ext_iff] at heq
  obtain ⟨h1, h2⟩ := heq
  subst h2
  unfold suggestionsForKey
  refine ⟨List.length_take_le 3 _, ?_, ?_⟩
  · have hmap : ((fields.map fun f =>
        Suggestion.mk f (calculate_mapping_confidence kv.1 f)).Pairwise
          fun s t => t.field.score ≤ s.field.score) :=
      hfields.map _ fun a b h => h
    have hfil := hmap.filter fun s => decide ((3 : ℚ)/10 < s.confidence)
    have hsort := sortStable_pairwise
      (fun a b : Suggestion => decide (b.confidence ≤ a.confidence))
      (fun a b h => decide_eq_true (le_of_not_le (of_decide_eq_false h)))
      (fun a b c h1 h2 => decide_eq_true
        (le_trans (of_decide_eq_true h2) (of_decide_eq_true h1)))
      _ hfil
    have htake := hsort.sublist (List.take_sublist 3 _)
    refine htake.imp fun {s t} hst =>
      ⟨of_decide_eq_true hst.1, fun hconf => hst.2 (decide_eq_true (le_of_eq hconf))⟩
  · intro s hs
    have h1 := (List.take_sublist 3 _).subset hs
    have h2 := (mem_sortStable _ _ _).mp h1
    have h3 := List.mem_filter.mp h2
    exact of_decide_eq_true h3.2

/-- Witness for C3 at a concrete input: a single detected email field and
the data key `"email"`. -/
theorem suggestions_sorted_truncated_witness :
    (suggestionsForKey [emailField] "email").length ≤ 3 ∧
    ((suggestionsForKey [emailField] "email").Pairwise fun s t =>
      t.confidence ≤ s.confidence ∧
        (s.confidence = t.confidence → t.field.score ≤ s.field.score)) ∧
    ∀ s ∈ suggestionsForKey [emailField] "email", (3 : ℚ)/10 < s.confidence :=
  suggestions_sorted_truncated [emailField] [("email", "x")] "email"
    (suggestionsForKey [emailField] "email") (by simp)
    (by simp [get_field_suggestions])

/-- Claim C6: whenever the Fill Engine's candidate set is non-empty (given
the Scanner invariant that discovery indices are strictly increasing), the
field handed to the fill step has maximal score among the candidates, and
among candidates of that maximal score it is the earliest in discovery
order — the ranking step is a stable descending-by-score sort and Python's
`max` keeps the first maximum. -/
theorem fill_selects_highest_scored_earliest (discovered : List Field)
    (semantic_type : String)
    (hord : discovered.Pairwise fun a b => a.order < b.order)
    (b : Field)
    (hb : bestField (matchingFields (rankFields discovered) semantic_type) = some b) :
    b ∈ matchingFields (rankFields discovered) semantic_type ∧
    (∀ f ∈ matchingFields (rankFields discovered) semantic_type, f.score ≤ b.score) ∧
    (∀ f ∈ matchingFields (rankFields discovered) semantic_type,
      f.score = b.score → b.order ≤ f.order) := by
  have hrank : (rankFields discovered).Pairwise
      fun x y => (decide (y.score ≤ x.score) = true) ∧
        (decide (x.score ≤ y.score) = true → x.order < y.order) := by
    unfold rankFields
    exact sortStable_pairwise
      (fun x y : Field => decide (y.score ≤ x.score))
      (fun x y h => decide_eq_true (le_of_not_le (of_decide_eq_false h)))
      (fun x y z h1 h2 => decide_eq_true
        (le_trans (of_decide_eq_true h2) (of_decide_eq_true h1)))
      discovered hord
  have hcand := matchingFields_pairwise (rankFields discovered) semantic_type hrank
  cases hcl : matchingFields (rankFields discovered) semantic_type with
  | nil =>
    rw [hcl] at hb
    exact absurd hb (by simp [bestField])
  | cons c rest =>
    rw [hcl] at hb hcand
    have hdesc : (c :: rest).Pairwise fun x y => y.score ≤ x.score :=
      hcand.imp fun h => of_decide_eq_true h.1
    have hbc : b = c := by
      have hmax := pyMaxBy_of_sorted c rest hdesc
      simp only [bestField, hmax] at hb
      exact (Option.some.inj hb).symm
    subst hbc
    refine ⟨List.mem_cons_self b rest, ?_, ?_⟩
    · intro f hf
      rcases List.mem_cons.mp hf with rfl | hf
      · exact le_refl _
      · exact of_decide_eq_true ((List.pairwise_cons.mp hcand).1 f hf).1
    · intro f hf hscore
      rcases List.mem_cons.mp hf with rfl | hf
      · exact le_refl _
      · exact le_of_lt (((List.pairwise_cons.mp hcand).1 f hf).2
          (decide_eq_true (le_of_eq hscore.symm)))

/-- Witness for C6 at a concrete input: two detected email fields of equal
score; the one discovered first (order 0) is selected, and the tie-break
conclusion applied to the other yields the discovery-order inequality. -/
theorem fill_selects_witness :
    emailField ∈ matchingFields (rankFields [emailField, emailField2]) "email" ∧
    emailField.order ≤ emailField2.order :=
  ⟨(fill_selects_highest_scored_earliest [emailField, emailField2] "email"
      (by decide) emailField (by decide)).1,
   (fill_selects_highest_scored_earliest [emailField, emailField2] "email"
      (by decide) emailField (by decide)).2.2 emailField2 (by decide) (by decide)⟩

/-- Claim C7 counterexample: `findLabel` returns
`label.textContent.trim()`, which is the empty string for a text-less
label element; at such an input the source's `filter(Boolean)` drops the
empty label, so the built search string differs from the claimed
construction that skips only undefined values. -/
theorem searchText_claim_refuted :
    searchText aNameAttributes emptyLabelContext = "a" ∧
    claimedSearchText aNameAttributes emptyLabelContext = "a " ∧
    searchText aNameAttributes emptyLabelContext ≠
      claimedSearchText aNameAttributes emptyLabelContext := by
  decide

/-- Claim C7 (amended): for every attributes+context input, the classifier
builds one lowercase search string by space-joining name, id, placeholder,
label and all nearbyText fragments, skipping undefined and empty entries
(JS `filter(Boolean)` treats both as falsy); it returns the first category
in table-declaration order having any matching pattern, and `'unknown'`
exactly when no pattern of any category matches.  Classification is a pure
function of attributes and context in this embedding, so repeated analysis
of an unchanged element yields the same semantic and score definitionally. -/
theorem inferPurpose_first_match (a : Attributes) (c : Context) :
    searchText a c = amendedSearchText a c ∧
    ((inferPurpose a c = "unknown" ∧
      ∀ cat ∈ semanticPatterns, ∀ p ∈ cat.2, strIn p (searchText a c) = false) ∨
     (∃ pre cat post, semanticPatterns = pre ++ cat :: post ∧
      inferPurpose a c = cat.1 ∧
      (∃ p ∈ cat.2, strIn p (searchText a c) = true) ∧
      ∀ cat' ∈ pre, ∀ p ∈ cat'.2, strIn p (searchText a c) = false)) := by
  constructor
  · unfold searchText amendedSearchText
    simp only [truthyList_eq_filter, List.filter_append]
  · cases hfind : semanticPatterns.find?
        (fun cat => cat.2.any fun p => strIn p (searchText a c)) with
    | none =>
      left
      constructor
      · unfold inferPurpose
        rw [hfind]
      · intro cat hcat p hp
        have hnone := List.find?_eq_none.mp hfind cat hcat
        cases hsp : strIn p (searchText a c)
        · rfl
        · exact absurd (List.any_eq_true.mpr ⟨p, hp, hsp⟩) (by simpa using hnone)
    | some cat =>
      right
      obtain ⟨pre, post, htab, hpcat, hprev⟩ := find?_split _ _ _ hfind
      refine ⟨pre, cat, post, htab, ?_, ?_, ?_⟩
      · unfold inferPurpose
        rw [hfind]
      · exact List.any_eq_true.mp hpcat
      · intro cat' hcat' p hp
        have hfalse := hprev cat' hcat'
        cases hsp : strIn p (searchText a c)
        · rfl
        · have hany : (cat'.2.any fun q => strIn q (searchText a c)) = true :=
            List.any_eq_true.mpr ⟨p, hp, hsp⟩
          simp only [hany] at hfalse
          exact absurd hfalse (by simp)
